import Mathlib

/-
  Verification development for the NPR proof-assistant kernel.

  The data model and operations are shallowly embedded from the
  TypeScript sources:
    * types/diagram.ts   : Generator, Diagram, isValidGenerator, isValidDiagram,
                           createEmptyDiagram, createGeneratorDiagram
    * types/rewrite.ts   : Rewrite, Cospan, Cone, isValidRewrite, isValidCospan,
                           isValidCone, createGeneratorRewrite, createIdentityRewrite
    * types/npr.ts       : NPRValidationError, NPRAxiom, validateDiagramComposition
    * engine/normalization.ts : normalizeDiagram, normalizeRewrite, reduceTerms,
                           performBetaReduction, isNormalForm and helpers
    * engine/composition.ts   : composeDiagrams, composeRewrites, getCompositionType
    * engine/contraction.ts   : contractDiagram, contractCospan and helpers
    * axioms/index.ts    : validateAllAxioms, optimizeValidationOrder

  TypeScript exceptions are modelled with Except String; the dimension
  field, which in TypeScript is an arbitrary number, is modelled as Int.
  Values in the embedding are trees, which matches every value the
  TypeScript type system can produce without aliasing; the separate
  heap-based model near the end covers aliased (possibly cyclic) values
  for the claims about cycle defense.
-/

/-- The polarity coloring of a generator: cartesian or cocartesian. -/
inductive Color where
  | cartesian
  | cocartesian
deriving DecidableEq, Repr

/-- Generator: atomic 0-dimensional unit (types/diagram.ts). -/
structure Generator where
  id : String
  label : Option String := none
  color : Option Color := none
deriving DecidableEq, Repr

mutual
/-- Rewrite (types/rewrite.ts): dimension 0 carries source/target generators,
dimension 1 is the identity marker, higher dimensions carry cones.
mkN with dimension 0 or 1 models malformed records lacking the
generator/identity fields. -/
inductive Rewrite where
  | mk0 (source target : Generator)
  | mkI
  | mkN (dimension : Int) (cones : List Cone)

/-- Cospan (types/rewrite.ts): a forward/backward pair of rewrites. -/
inductive Cospan where
  | mk (forward backward : Rewrite)

/-- Cone (types/rewrite.ts): sparse encoding of a reindexing step. -/
inductive Cone where
  | mk (index : Int) (source : List Cospan) (target : Cospan) (slices : List Rewrite)
end

/-- Diagram (types/diagram.ts): dimension 0 wraps a generator, higher
dimensions carry a source diagram and a cospan list.  mkN with a
non-positive dimension models malformed records. -/
inductive Diagram where
  | mk0 (generator : Generator)
  | mkN (dimension : Int) (source : Diagram) (cospans : List Cospan)

/-- The dimension field of a rewrite value. -/
def Rewrite.dimension : Rewrite → Int
  | .mk0 _ _ => 0
  | .mkI => 1
  | .mkN d _ => d

/-- The forward leg of a cospan. -/
def Cospan.forward : Cospan → Rewrite
  | .mk f _ => f

/-- The backward leg of a cospan. -/
def Cospan.backward : Cospan → Rewrite
  | .mk _ b => b

/-- The dimension field of a diagram value. -/
def Diagram.dimension : Diagram → Int
  | .mk0 _ => 0
  | .mkN d _ _ => d

/-- isValidGenerator (types/diagram.ts): the id must be a non-empty string;
label and color constraints are enforced by the embedding types. -/
def isValidGenerator (g : Generator) : Bool :=
  g.id != ""

mutual
/-- isValidRewrite (types/rewrite.ts).  A record with dimension 0 must carry
valid source/target generators (mkN lacks them, hence false), dimension 1
must carry the identity marker, negative dimensions are rejected, and
higher dimensions must have every cone valid. -/
def isValidRewrite : Rewrite → Bool
  | .mk0 s t => isValidGenerator s && isValidGenerator t
  | .mkI => true
  | .mkN d cones =>
    if d == 0 then false
    else if d == 1 then false
    else if d < 0 then false
    else allConesValid cones

/-- cones.every(isValidCone) from isValidRewrite. -/
def allConesValid : List Cone → Bool
  | [] => true
  | c :: cs => isValidCone c && allConesValid cs

/-- isValidCospan (types/rewrite.ts): both legs must be valid rewrites. -/
def isValidCospan : Cospan → Bool
  | .mk f b => isValidRewrite f && isValidRewrite b

/-- isValidCone (types/rewrite.ts): non-negative index, valid target cospan,
every source cospan valid, every slice rewrite valid. -/
def isValidCone : Cone → Bool
  | .mk i src tgt sl =>
    decide (0 ≤ i) && isValidCospan tgt && allCospansValid src && allRewritesValid sl

/-- source.every(isValidCospan) from isValidCone. -/
def allCospansValid : List Cospan → Bool
  | [] => true
  | c :: cs => isValidCospan c && allCospansValid cs

/-- slices.every(isValidRewrite) from isValidCone. -/
def allRewritesValid : List Rewrite → Bool
  | [] => true
  | r :: rs => isValidRewrite r && allRewritesValid rs
end

/-- isValidDiagram (types/diagram.ts).  Dimension 0 must carry a valid
generator (mkN lacks one, hence false), negative dimensions are rejected,
and higher dimensions must have a valid source; the cospan contents are
not inspected (only Array.isArray is checked in the source). -/
def isValidDiagram : Diagram → Bool
  | .mk0 g => isValidGenerator g
  | .mkN d s _ =>
    if d == 0 then false
    else if d < 0 then false
    else isValidDiagram s

/-- createEmptyDiagram (types/diagram.ts). -/
def createEmptyDiagram : Diagram :=
  .mk0 { id := "empty", label := some "ε" }

/-- createGeneratorDiagram (types/diagram.ts). -/
def createGeneratorDiagram (g : Generator) : Diagram :=
  .mk0 g

/-- createGeneratorRewrite (types/rewrite.ts). -/
def createGeneratorRewrite (s t : Generator) : Rewrite :=
  .mk0 s t

/-- createIdentityRewrite (types/rewrite.ts). -/
def createIdentityRewrite : Rewrite :=
  .mkI

/-- The test (r.dimension === 1 && 'identity' in r && r.identity) used
throughout the engine to recognize the identity rewrite. -/
def isIdentityLike : Rewrite → Bool
  | .mkI => true
  | _ => false

/-- The cycle/depth guard local to normalizeDiagram and contractDiagram
(engine/normalization.ts, engine/contraction.ts): true means the check
passes, false means the guard throws.  On tree-shaped values the
identity-based visited set never fires, so only the depth bound remains. -/
def checkCycles : Diagram → Nat → Bool
  | .mk0 _, depth => decide (depth ≤ 100)
  | .mkN dim s _, depth =>
    if depth > 100 then false
    else if dim > 0 then checkCycles s (depth + 1)
    else true

/-- isRedundantCospan (engine/normalization.ts): both legs are identity
rewrites. -/
def isRedundantCospan : Cospan → Bool
  | .mk f b => isIdentityLike f && isIdentityLike b

/-- reduceRedundantCospans (engine/normalization.ts): keeps exactly the
valid, non-redundant cospans; invalid entries are dropped. -/
def reduceRedundantCospans (cospans : List Cospan) : List Cospan :=
  cospans.filter (fun c => isValidCospan c && !isRedundantCospan c)

mutual
/-- normalizeRewrite (engine/normalization.ts): throws on invalid input;
dimension 0 and the identity are returned unchanged; higher dimensions
normalize every cone. -/
def normalizeRewrite (r : Rewrite) : Except String Rewrite :=
  if !isValidRewrite r then .error "Cannot normalize invalid rewrite structure"
  else
    match r with
    | .mkI => .ok .mkI
    | .mk0 s t => .ok (.mk0 s t)
    | .mkN d cones =>
      if d > 1 then do
        let nc ← normListCones cones
        pure (Rewrite.mkN d nc)
      else pure (Rewrite.mkN d cones)

/-- cones.map(normalizeCone) with exception propagation. -/
def normListCones : List Cone → Except String (List Cone)
  | [] => .ok []
  | c :: cs => do
    let n ← normalizeCone c
    let ns ← normListCones cs
    pure (n :: ns)

/-- normalizeCone (engine/normalization.ts). -/
def normalizeCone : Cone → Except String Cone
  | .mk i src tgt sl => do
    let nsrc ← normListCospans src
    let ntgt ← normalizeCospan tgt
    let nsl ← normListRewrites sl
    pure (Cone.mk i nsrc ntgt nsl)

/-- normalizeCospan (engine/normalization.ts). -/
def normalizeCospan : Cospan → Except String Cospan
  | .mk f b => do
    let nf ← normalizeRewrite f
    let nb ← normalizeRewrite b
    pure (Cospan.mk nf nb)

/-- source.map(normalizeCospan) with exception propagation. -/
def normListCospans : List Cospan → Except String (List Cospan)
  | [] => .ok []
  | c :: cs => do
    let n ← normalizeCospan c
    let ns ← normListCospans cs
    pure (n :: ns)

/-- slices.map(normalizeRewrite) with exception propagation. -/
def normListRewrites : List Rewrite → Except String (List Rewrite)
  | [] => .ok []
  | r :: rs => do
    let n ← normalizeRewrite r
    let ns ← normListRewrites rs
    pure (n :: ns)
end

/-- The cospans.map step of normalizeDiagram: valid cospans are normalized,
invalid ones pass through unchanged. -/
def normMapCospans : List Cospan → Except String (List Cospan)
  | [] => .ok []
  | c :: cs => do
    let n ← if isValidCospan c then normalizeCospan c else pure c
    let ns ← normMapCospans cs
    pure (n :: ns)

/-- normalizeDiagram (engine/normalization.ts): validity check, cycle/depth
guard, then recursive normalization of the source and the cospans followed
by redundant-cospan elimination. -/
def normalizeDiagram : Diagram → Except String Diagram
  | .mk0 g =>
    if !isValidDiagram (.mk0 g) then .error "Cannot normalize invalid diagram structure"
    else if !checkCycles (.mk0 g) 0 then .error "Maximum normalization depth exceeded - possible cycle detected"
    else .ok (.mk0 g)
  | .mkN dim s cs =>
    if !isValidDiagram (.mkN dim s cs) then .error "Cannot normalize invalid diagram structure"
    else if !checkCycles (.mkN dim s cs) 0 then .error "Maximum normalization depth exceeded - possible cycle detected"
    else if dim == 0 then .ok (.mkN dim s cs)
    else do
      let ns ← normalizeDiagram s
      let ncs ← normMapCospans cs
      pure (Diagram.mkN dim ns (reduceRedundantCospans ncs))

mutual
/-- performBetaReduction (engine/normalization.ts): throws on invalid input;
dimension 0 and identity are beta-normal; higher dimensions rebuild every
cone by beta-reducing its cospans and slices. -/
def performBetaReduction (r : Rewrite) : Except String Rewrite :=
  if !isValidRewrite r then .error "Cannot perform beta reduction on invalid rewrite"
  else
    match r with
    | .mk0 s t => .ok (.mk0 s t)
    | .mkI => .ok .mkI
    | .mkN d cones =>
      if d > 1 then do
        let rc ← betaListCones cones
        pure (Rewrite.mkN d rc)
      else pure (Rewrite.mkN d cones)

/-- cones.map of the inline cone rebuilding in performBetaReduction. -/
def betaListCones : List Cone → Except String (List Cone)
  | [] => .ok []
  | c :: cs => do
    let n ← betaCone c
    let ns ← betaListCones cs
    pure (n :: ns)

/-- The inline rebuilding of one cone inside performBetaReduction. -/
def betaCone : Cone → Except String Cone
  | .mk i src tgt sl => do
    let nsrc ← betaListCospans src
    let ntgt ← betaCospan tgt
    let nsl ← betaListRewrites sl
    pure (Cone.mk i nsrc ntgt nsl)

/-- The inline cospan rebuilding inside performBetaReduction. -/
def betaCospan : Cospan → Except String Cospan
  | .mk f b => do
    let nf ← performBetaReduction f
    let nb ← performBetaReduction b
    pure (Cospan.mk nf nb)

/-- source.map of the inline cospan rebuilding in performBetaReduction. -/
def betaListCospans : List Cospan → Except String (List Cospan)
  | [] => .ok []
  | c :: cs => do
    let n ← betaCospan c
    let ns ← betaListCospans cs
    pure (n :: ns)

/-- slices.map(performBetaReduction). -/
def betaListRewrites : List Rewrite → Except String (List Rewrite)
  | [] => .ok []
  | r :: rs => do
    let n ← performBetaReduction r
    let ns ← betaListRewrites rs
    pure (n :: ns)
end

/-- rewritesEqual (engine/normalization.ts): compares dimensions, then ids
for dimension 0, then identity markers for dimension 1; any higher
dimension compares as different.  (On a malformed dimension-0 record the
TypeScript code would throw reading an absent generator; that case is
unreachable from the valid inputs it is used on and compares false here.) -/
def rewritesEqual (r1 r2 : Rewrite) : Bool :=
  if r1.dimension != r2.dimension then false
  else if r1.dimension == 0 && r2.dimension == 0 then
    match r1, r2 with
    | .mk0 s1 t1, .mk0 s2 t2 => s1.id == s2.id && t1.id == t2.id
    | _, _ => false
  else if r1.dimension == 1 && r2.dimension == 1 then
    match r1, r2 with
    | .mkI, .mkI => true
    | _, _ => false
  else false

/-- isRewriteInNormalForm (engine/normalization.ts): valid and a fixed
point of beta reduction under rewritesEqual. -/
def isRewriteInNormalForm (r : Rewrite) : Bool :=
  if !isValidRewrite r then false
  else
    match performBetaReduction r with
    | .ok r2 => rewritesEqual r r2
    | .error _ => false

/-- The adjacent-pair scan of hasReduciblePatterns. -/
def adjacentRedundant : List Cospan → Bool
  | c1 :: c2 :: rest =>
    (if isValidCospan c1 && isValidCospan c2 then
      isRedundantCospan c1 || isRedundantCospan c2
    else false) || adjacentRedundant (c2 :: rest)
  | _ => false

/-- hasReduciblePatterns (engine/normalization.ts): some adjacent pair of
valid cospans contains a redundant one. -/
def hasReduciblePatterns : Diagram → Bool
  | .mk0 _ => false
  | .mkN _ _ cs => adjacentRedundant cs

/-- The per-cospan check of isNormalForm: valid cospans must have both legs
in beta-normal form. -/
def allCospansNormal : List Cospan → Bool
  | [] => true
  | c :: cs =>
    (if isValidCospan c then
      isRewriteInNormalForm c.forward && isRewriteInNormalForm c.backward
    else true) && allCospansNormal cs

/-- isNormalForm (engine/normalization.ts): valid, source in normal form,
every valid cospan has beta-normal legs, and no reducible adjacent pair. -/
def isNormalForm : Diagram → Bool
  | .mk0 g => isValidDiagram (.mk0 g)
  | .mkN dim s cs =>
    isValidDiagram (.mkN dim s cs) &&
    isNormalForm s &&
    allCospansNormal cs &&
    !hasReduciblePatterns (.mkN dim s cs)

/-- areInverses (engine/normalization.ts): both dimension 0 with swapped
source/target ids.  (On a malformed dimension-0 record the TypeScript code
would throw reading absent generators; unreachable from the normalized
inputs it is used on.) -/
def areInverses (r1 r2 : Rewrite) : Bool :=
  match r1, r2 with
  | .mk0 s1 t1, .mk0 s2 t2 => s1.id == t2.id && t1.id == s2.id
  | _, _ => false

/-- areComposable (engine/normalization.ts): both dimension 0 and the
target id of the first matches the source id of the second. -/
def areComposable (r1 r2 : Rewrite) : Bool :=
  match r1, r2 with
  | .mk0 _ t1, .mk0 s2 _ => t1.id == s2.id
  | _, _ => false

/-- composeForReduction (engine/normalization.ts): guarded generator
composition used by reduceTerms. -/
def composeForReduction (r1 r2 : Rewrite) : Except String Rewrite :=
  if !areComposable r1 r2 then .error "Rewrites are not composable for reduction"
  else
    match r1, r2 with
    | .mk0 s1 _, .mk0 _ t2 => .ok (.mk0 s1 t2)
    | _, _ => .error "Rewrites are not composable for reduction"

/-- The index loop of reduceTerms on the list of normalized terms:
identities are skipped, adjacent inverse pairs cancel, adjacent composable
pairs collapse, everything else passes through. -/
def reduceLoop : List Rewrite → Except String (List Rewrite)
  | [] => .ok []
  | [r] => .ok (if isIdentityLike r then [] else [r])
  | r :: next :: rest =>
    if isIdentityLike r then reduceLoop (next :: rest)
    else if areInverses r next then reduceLoop rest
    else if areComposable r next then do
      let c ← composeForReduction r next
      let tail ← reduceLoop rest
      pure (c :: tail)
    else do
      let tail ← reduceLoop (next :: rest)
      pure (r :: tail)

/-- terms.map(normalizeRewrite) with exception propagation. -/
def normalizeAll : List Rewrite → Except String (List Rewrite)
  | [] => .ok []
  | r :: rs => do
    let n ← normalizeRewrite r
    let ns ← normalizeAll rs
    pure (n :: ns)

/-- reduceTerms (engine/normalization.ts): empty input stays empty, a
singleton is normalized only, and longer lists are normalized then reduced
by the index loop. -/
def reduceTerms (terms : List Rewrite) : Except String (List Rewrite) :=
  match terms with
  | [] => .ok []
  | [t] => do
    let n ← normalizeRewrite t
    pure [n]
  | _ => do
    let normalized ← normalizeAll terms
    reduceLoop normalized

/-- Severity of a validation finding (types/npr.ts). -/
inductive Severity where
  | error
  | warning
  | info
deriving DecidableEq, Repr

/-- NPRValidationError (types/npr.ts). -/
structure NPRValidationError where
  code : String
  message : String
  severity : Severity
  location : Option String := none
deriving DecidableEq, Repr

/-- validateDiagramComposition (types/npr.ts): one structural-validity
error per invalid operand; the dimension and color branches push nothing. -/
def validateDiagramComposition (left right : Diagram) : List NPRValidationError :=
  (if !isValidDiagram left then
    [{ code := "INVALID_LEFT_DIAGRAM",
       message := "Left diagram is structurally invalid",
       severity := .error }]
  else []) ++
  (if !isValidDiagram right then
    [{ code := "INVALID_RIGHT_DIAGRAM",
       message := "Right diagram is structurally invalid",
       severity := .error }]
  else [])

/-- CompositionType (engine/composition.ts). -/
inductive CompositionType where
  | horizontal
  | vertical
  | whiskering
  | invalid
deriving DecidableEq, Repr

/-- isEmptyDiagram (engine/composition.ts): dimension 0 with generator id
the literal empty string tag. -/
def isEmptyDiagram : Diagram → Bool
  | .mk0 g => g.id == "empty"
  | .mkN _ _ _ => false

/-- areVerticallyComposable (engine/composition.ts). -/
def areVerticallyComposable (left right : Diagram) : Bool :=
  if left.dimension == 0 && right.dimension == 0 then false
  else if left.dimension != right.dimension then false
  else true

/-- getCompositionType (engine/composition.ts): total classifier used as a
pre-flight check. -/
def getCompositionType (left right : Diagram) : CompositionType :=
  if !isValidDiagram left || !isValidDiagram right then .invalid
  else if left.dimension == right.dimension then
    if left.dimension == 0 then .horizontal
    else if areVerticallyComposable left right then .vertical
    else .horizontal
  else if (left.dimension - right.dimension).natAbs == 1 then .whiskering
  else if (left.dimension - right.dimension).natAbs > 2 then .invalid
  else .horizontal

/-- composeHorizontally (engine/composition.ts): two 0-cells build a fresh
1-dimensional diagram with a single generator cospan; two positive
dimensions compose sources and concatenate cospans; otherwise the higher
dimensional operand wins. -/
def composeHorizontally : Diagram → Diagram → Diagram
  | .mk0 g1, .mk0 g2 =>
    .mkN 1 (.mk0 g1) [Cospan.mk (.mk0 g1 g2) (.mk0 g2 g1)]
  | .mkN dl sl csl, .mkN dr sr csr =>
    if dl > 0 && dr > 0 then
      .mkN (max dl dr) (composeHorizontally sl sr) (csl ++ csr)
    else if dl > dr then .mkN dl sl csl else .mkN dr sr csr
  | .mk0 g1, .mkN dr sr csr =>
    if dr > 0 then .mkN dr sr csr else .mk0 g1
  | .mkN dl sl csl, .mk0 g2 =>
    if dl > 0 then .mkN dl sl csl else .mk0 g2

/-- composeVertically (engine/composition.ts): rejects 0-dimensional
operands, otherwise keeps the left source and concatenates the cospan
sequences. -/
def composeVertically (left right : Diagram) : Except String Diagram :=
  if left.dimension == 0 || right.dimension == 0 then
    .error "Cannot vertically compose 0-dimensional diagrams"
  else
    match left, right with
    | .mkN dl sl csl, .mkN _ _ csr => .ok (.mkN dl sl (csl ++ csr))
    | _, _ => .error "Cannot vertically compose 0-dimensional diagrams"

/-- composeByWhiskering (engine/composition.ts): the higher dimensional
diagram is returned with its shape unchanged. -/
def composeByWhiskering (left right : Diagram) : Diagram :=
  if left.dimension > right.dimension then left else right

/-- composeDiagrams (engine/composition.ts): validity check, NPR
composition advisory (result discarded in the source), empty-diagram
identities, then dispatch on the composition type. -/
def composeDiagrams (left right : Diagram) : Except String Diagram :=
  if !isValidDiagram left || !isValidDiagram right then
    .error "Cannot compose invalid diagram structures"
  else
    let _ := validateDiagramComposition left right
    if isEmptyDiagram left then .ok right
    else if isEmptyDiagram right then .ok left
    else
      match getCompositionType left right with
      | .horizontal => .ok (composeHorizontally left right)
      | .vertical => composeVertically left right
      | .whiskering => .ok (composeByWhiskering left right)
      | .invalid => .error "Diagrams cannot be composed: incompatible structures"

/-- composeRewrites (engine/composition.ts): identities are two-sided
units, dimension-0 pairs compose on matching ids, mixed dimensions let the
higher dimension dominate, and two dimensions above 1 return the left
operand unchanged. -/
def composeRewrites (left right : Rewrite) : Except String Rewrite :=
  if !isValidRewrite left || !isValidRewrite right then
    .error "Cannot compose invalid rewrites"
  else if isIdentityLike left then .ok right
  else if isIdentityLike right then .ok left
  else if left.dimension == 0 && right.dimension == 0 then
    match left, right with
    | .mk0 ls lt, .mk0 rs rt =>
      if lt.id != rs.id then
        .error "Generator rewrites are not composable: target/source mismatch"
      else .ok (createGeneratorRewrite ls rt)
    | _, _ => .error "Generator rewrites are not composable: target/source mismatch"
  else if left.dimension == 0 && right.dimension > 0 then .ok right
  else if left.dimension > 0 && right.dimension == 0 then .ok left
  else .ok left

/-- composeSequentially (engine/composition.ts): empty gives the identity,
a singleton is returned unchanged, longer lists left-fold composeRewrites. -/
def composeSequentially (rewrites : List Rewrite) : Except String Rewrite :=
  match rewrites with
  | [] => .ok createIdentityRewrite
  | [r] => .ok r
  | r :: rs =>
    rs.foldlM (fun acc x => composeRewrites acc x) r

mutual
/-- contractRewrite (engine/contraction.ts): throws on invalid input;
dimensions 0 and 1 are fixed points; higher dimensions contract every cone. -/
def contractRewrite (r : Rewrite) : Except String Rewrite :=
  if !isValidRewrite r then .error "Invalid rewrite structure"
  else
    match r with
    | .mk0 s t => .ok (.mk0 s t)
    | .mkI => .ok .mkI
    | .mkN d cones =>
      if d == 0 || d == 1 then pure (Rewrite.mkN d cones)
      else do
        let cc ← contractListCones cones
        pure (Rewrite.mkN d cc)

/-- cones.map(contractCone). -/
def contractListCones : List Cone → Except String (List Cone)
  | [] => .ok []
  | c :: cs => do
    let n ← contractCone c
    let ns ← contractListCones cs
    pure (n :: ns)

/-- contractCone (engine/contraction.ts). -/
def contractCone : Cone → Except String Cone
  | .mk i src tgt sl => do
    let nsrc ← contractListCospans src
    let ntgt ← contractCospan tgt
    let nsl ← contractListRewrites sl
    pure (Cone.mk i nsrc ntgt nsl)

/-- contractCospan (engine/contraction.ts): throws on invalid input; a
cospan whose leg dimensions are both 1 or both 0 is returned unchanged;
otherwise both legs are contracted recursively. -/
def contractCospan (c : Cospan) : Except String Cospan :=
  if !isValidCospan c then .error "Invalid cospan structure"
  else
    match c with
    | .mk f b =>
      if f.dimension == 1 && b.dimension == 1 then .ok (.mk f b)
      else if f.dimension == 0 && b.dimension == 0 then .ok (.mk f b)
      else do
        let nf ← contractRewrite f
        let nb ← contractRewrite b
        pure (Cospan.mk nf nb)

/-- cone.source.map(contractCospan). -/
def contractListCospans : List Cospan → Except String (List Cospan)
  | [] => .ok []
  | c :: cs => do
    let n ← contractCospan c
    let ns ← contractListCospans cs
    pure (n :: ns)

/-- cone.slices.map(contractRewrite). -/
def contractListRewrites : List Rewrite → Except String (List Rewrite)
  | [] => .ok []
  | r :: rs => do
    let n ← contractRewrite r
    let ns ← contractListRewrites rs
    pure (n :: ns)
end

/-- The cospans.map step of contractDiagram: valid cospans are contracted,
invalid ones pass through unchanged. -/
def contractMapCospans : List Cospan → Except String (List Cospan)
  | [] => .ok []
  | c :: cs => do
    let n ← if isValidCospan c then contractCospan c else pure c
    let ns ← contractMapCospans cs
    pure (n :: ns)

/-- contractDiagram (engine/contraction.ts): validity check, cycle/depth
guard, then recursive contraction of the source and of every valid cospan. -/
def contractDiagram : Diagram → Except String Diagram
  | .mk0 g =>
    if !isValidDiagram (.mk0 g) then .error "Invalid diagram structure"
    else if !checkCycles (.mk0 g) 0 then .error "Cyclic reference detected in diagram"
    else .ok (.mk0 g)
  | .mkN dim s cs =>
    if !isValidDiagram (.mkN dim s cs) then .error "Invalid diagram structure"
    else if !checkCycles (.mkN dim s cs) 0 then .error "Cyclic reference detected in diagram"
    else if dim == 0 then .ok (.mkN dim s cs)
    else do
      let ns ← contractDiagram s
      let ncs ← contractMapCospans cs
      pure (Diagram.mkN dim ns ncs)

/-- Category tag of a registered validation rule (types/npr.ts). -/
inductive RuleCategory where
  | structural
  | cartesian
  | cocartesian
deriving DecidableEq, Repr

/-- NPRAxiom (types/npr.ts): a registered validation rule.  A validator
that throws is modelled by returning Except.error. -/
structure NPRAxiom where
  id : String
  name : String
  description : String
  category : RuleCategory
  validator : Diagram → Except String (List NPRValidationError)

/-- One entry of a ValidationReport (axioms/index.ts): the errors and
warnings one registered rule produced for the diagram. -/
structure AxiomResult where
  axiomId : String
  errors : List NPRValidationError
  warnings : List NPRValidationError
deriving DecidableEq, Repr

/-- The body of the registry loop in validateAllAxioms: run one validator,
split its findings by severity, and turn a thrown exception into a single
AXIOM_VALIDATION_ERROR finding scoped to that rule id. -/
def runOneRule (d : Diagram) (a : NPRAxiom) : AxiomResult :=
  match a.validator d with
  | .ok results =>
    { axiomId := a.id,
      errors := results.filter (fun e => e.severity == .error),
      warnings := results.filter (fun e => e.severity == .warning) }
  | .error msg =>
    { axiomId := a.id,
      errors := [{ code := "AXIOM_VALIDATION_ERROR",
                   message := "Error validating axiom " ++ a.id ++ ": " ++ msg,
                   severity := .error }],
      warnings := [] }

/-- validateAllAxioms (axioms/index.ts): an invalid diagram short-circuits
to a single basic-structure entry; otherwise every registered rule is run
in registry order (the registry forbids duplicate ids, so the report map
is faithfully a list of per-rule entries). -/
def validateAllAxioms (d : Diagram) (registry : List NPRAxiom) : List AxiomResult :=
  if !isValidDiagram d then
    [{ axiomId := "basic-structure",
       errors := [{ code := "INVALID_DIAGRAM_STRUCTURE",
                    message := "Diagram does not follow valid zigzag structure",
                    severity := .error }],
       warnings := [] }]
  else registry.map (runOneRule d)

/-- optimizeValidationOrder (axioms/index.ts): structural rules first; for a
0-dimensional diagram the generator color picks which polar category comes
next (cartesian first when uncolored); for any other dimension cartesian
comes first.  A record with dimension 0 but no generator would make the
TypeScript code throw reading the color, hence the error case. -/
def optimizeValidationOrder (axioms : List NPRAxiom) (d : Diagram) :
    Except String (List NPRAxiom) :=
  let structural := axioms.filter (fun a => a.category == .structural)
  let cart := axioms.filter (fun a => a.category == .cartesian)
  let cocart := axioms.filter (fun a => a.category == .cocartesian)
  if d.dimension == 0 then
    match d with
    | .mk0 g =>
      match g.color with
      | some .cartesian => .ok (structural ++ cart ++ cocart)
      | some .cocartesian => .ok (structural ++ cocart ++ cart)
      | none => .ok (structural ++ cart ++ cocart)
    | _ => .error "TypeError: cannot read properties of undefined"
  else .ok (structural ++ cart ++ cocart)

/-
  Heap-based model of possibly-aliased diagram/rewrite objects.

  The tree types above cannot represent a value that contains itself, but
  a JavaScript object graph can.  Here an object lives at a heap address
  and its source/leg fields hold addresses, so self-reference is
  expressible.  The fuel argument counts recursive calls: the TypeScript
  predicates have no depth bound, so a call that returns within f steps
  yields (some b) at fuel f, and a call that never returns yields none at
  every fuel.
-/

/-- A diagram object on the heap: dimension field, optional generator,
optional source address, and whether the cospans field is an array. -/
structure DiagNode where
  dimension : Int
  generator : Option Generator
  source : Option Nat
  hasCospansArray : Bool

/-- The recursion of isValidDiagram (types/diagram.ts) over heap values,
instrumented with fuel. -/
def isValidDiagramFuel (heap : Nat → DiagNode) : Nat → Nat → Option Bool
  | 0, _ => none
  | fuel + 1, addr =>
    let n := heap addr
    if n.dimension == 0 then
      some (match n.generator with
            | some g => isValidGenerator g
            | none => false)
    else if n.dimension < 0 then some false
    else
      match n.source with
      | none => some false
      | some s =>
        match isValidDiagramFuel heap fuel s with
        | none => none
        | some b => some (b && n.hasCospansArray)

/-- A heap whose object at address 0 is a dimension-1 diagram that is its
own source: the d.source = d counterexample. -/
def cyclicDiagHeap : Nat → DiagNode :=
  fun _ => { dimension := 1, generator := none, source := some 0, hasCospansArray := true }

/-- A cospan on the heap: its legs are rewrite addresses. -/
structure HCospan where
  forward : Nat
  backward : Nat

/-- A cone on the heap: source/target cospans of rewrite addresses and
slice rewrite addresses. -/
structure HCone where
  index : Int
  source : List HCospan
  target : HCospan
  slices : List Nat

/-- A rewrite object on the heap. -/
structure RewNode where
  dimension : Int
  source : Option Generator
  target : Option Generator
  identity : Bool
  cones : Option (List HCone)

mutual
/-- The recursion of isValidRewrite (types/rewrite.ts) over heap values,
instrumented with fuel. -/
def validRewriteFuel (heap : Nat → RewNode) : Nat → Nat → Option Bool
  | 0, _ => none
  | fuel + 1, addr =>
    let n := heap addr
    if n.dimension == 0 then
      some ((match n.source with | some g => isValidGenerator g | none => false) &&
            (match n.target with | some g => isValidGenerator g | none => false))
    else if n.dimension == 1 then some n.identity
    else if n.dimension < 0 then some false
    else
      match n.cones with
      | none => some false
      | some cs => conesAllFuel heap fuel cs

/-- cones.every(isValidCone) over heap values with fuel. -/
def conesAllFuel (heap : Nat → RewNode) : Nat → List HCone → Option Bool
  | 0, _ => none
  | _ + 1, [] => some true
  | fuel + 1, c :: cs =>
    match coneValidFuel heap fuel c with
    | none => none
    | some false => some false
    | some true => conesAllFuel heap fuel cs

/-- The recursion of isValidCone over heap values with fuel. -/
def coneValidFuel (heap : Nat → RewNode) : Nat → HCone → Option Bool
  | 0, _ => none
  | fuel + 1, c =>
    if c.index < 0 then some false
    else
      match cospanValidFuel heap fuel c.target with
      | none => none
      | some false => some false
      | some true =>
        match cospansAllFuel heap fuel c.source with
        | none => none
        | some false => some false
        | some true => slicesAllFuel heap fuel c.slices

/-- The recursion of isValidCospan over heap values with fuel. -/
def cospanValidFuel (heap : Nat → RewNode) : Nat → HCospan → Option Bool
  | 0, _ => none
  | fuel + 1, c =>
    match validRewriteFuel heap fuel c.forward with
    | none => none
    | some false => some false
    | some true => validRewriteFuel heap fuel c.backward

/-- cone.source.every(isValidCospan) over heap values with fuel. -/
def cospansAllFuel (heap : Nat → RewNode) : Nat → List HCospan → Option Bool
  | 0, _ => none
  | _ + 1, [] => some true
  | fuel + 1, c :: cs =>
    match cospanValidFuel heap fuel c with
    | none => none
    | some false => some false
    | some true => cospansAllFuel heap fuel cs

/-- cone.slices.every(isValidRewrite) over heap values with fuel. -/
def slicesAllFuel (heap : Nat → RewNode) : Nat → List Nat → Option Bool
  | 0, _ => none
  | _ + 1, [] => some true
  | fuel + 1, a :: rest =>
    match validRewriteFuel heap fuel a with
    | none => none
    | some false => some false
    | some true => slicesAllFuel heap fuel rest
end

/-- A heap whose rewrite object at address 0 is a dimension-2 rewrite whose
single cone has a target cospan whose forward leg is the object itself. -/
def cyclicRewHeap : Nat → RewNode :=
  fun _ =>
    { dimension := 2, source := none, target := none, identity := false,
      cones := some [{ index := 0, source := [], target := { forward := 0, backward := 0 },
                       slices := [] }] }

/-- A leg with no cone payload: dimension 0 or 1.  Used to state the
amendment of claim C1. -/
def coneFreeLeg (r : Rewrite) : Bool :=
  r.dimension == 0 || r.dimension == 1

/-- Amendment condition for claim C1: along the whole source chain, every
valid cospan has both legs of dimension at most 1 (rewritesEqual compares
any higher-dimensional rewrite as different from itself, so such legs can
never pass the normal-form check). -/
def coneFreeCospans : Diagram → Bool
  | .mk0 _ => true
  | .mkN _ s cs =>
    coneFreeCospans s &&
    cs.all (fun c =>
      !isValidCospan c || (coneFreeLeg (Cospan.forward c) && coneFreeLeg (Cospan.backward c)))

/-- The dimension-0 root reached by repeated .source. -/
def rootGenerator : Diagram → Generator
  | .mk0 g => g
  | .mkN _ s _ => rootGenerator s

/-- Modelled from the spec (claim C8 wording): axioms reordered with
structural first, then the category matching the polarity of the
dimension-0 root reached via repeated .source, then the other category. -/
def claimOptimizeValidationOrder (axioms : List NPRAxiom) (d : Diagram) :
    List NPRAxiom :=
  let structural := axioms.filter (fun a => a.category == .structural)
  let cart := axioms.filter (fun a => a.category == .cartesian)
  let cocart := axioms.filter (fun a => a.category == .cocartesian)
  match (rootGenerator d).color with
  | some .cartesian => structural ++ cart ++ cocart
  | some .cocartesian => structural ++ cocart ++ cart
  | none => structural ++ cart ++ cocart

/-- A valid diagram whose source chain has the given number of levels. -/
def deepDiagram : Nat → Diagram
  | 0 => .mk0 { id := "deep" }
  | n + 1 => .mkN ((n : Int) + 1) (deepDiagram n) []

/-- Sample generator a. -/
def genA : Generator := { id := "a", label := some "A" }

/-- Sample generator b. -/
def genB : Generator := { id := "b", label := some "B" }

/-- Sample generator c. -/
def genC : Generator := { id := "c", label := some "C" }

/-- Sample generator d. -/
def genD : Generator := { id := "d", label := some "D" }

/-- A structurally valid 1-dimensional diagram one of whose cospan legs is
a (valid) 2-dimensional rewrite with no cones. -/
def coneLegDiagram : Diagram :=
  .mkN 1 (.mk0 genA) [Cospan.mk (.mkN 2 []) .mkI]

/-- A well-behaved structural rule returning no findings. -/
def ruleOkEmpty : NPRAxiom :=
  { id := "good-structural", name := "Good structural rule",
    description := "returns no findings", category := .structural,
    validator := fun _ => .ok [] }

/-- A misbehaving rule whose validator throws. -/
def ruleThrowing : NPRAxiom :=
  { id := "bad-rule", name := "Throwing rule",
    description := "always throws", category := .cartesian,
    validator := fun _ => .error "boom" }

/-- A well-behaved rule returning one warning finding. -/
def ruleWarn : NPRAxiom :=
  { id := "good-warning", name := "Warning rule",
    description := "returns one warning", category := .cocartesian,
    validator := fun _ => .ok [{ code := "W1", message := "heads up", severity := .warning }] }

/-- A cartesian-category rule with no findings. -/
def ruleCart : NPRAxiom :=
  { id := "cart-rule", name := "Cartesian rule",
    description := "no findings", category := .cartesian,
    validator := fun _ => .ok [] }

/-- A cocartesian-category rule with no findings. -/
def ruleCocart : NPRAxiom :=
  { id := "cocart-rule", name := "Cocartesian rule",
    description := "no findings", category := .cocartesian,
    validator := fun _ => .ok [] }

/-- A valid 1-dimensional diagram whose dimension-0 root generator is
cocartesian. -/
def cocartRootDiagram : Diagram :=
  .mkN 1 (.mk0 { id := "g", color := some .cocartesian }) []

/-! Helper lemmas shared by several claims. -/

theorem isIdentityLike_false_of_dim (r : Rewrite) (h : r.dimension ≠ 1) :
    isIdentityLike r = false := by
  cases r with
  | mk0 s t => rfl
  | mkI => exact absurd rfl h
  | mkN d cones => rfl

theorem valid_dim0_mk0 (r : Rewrite) (hv : isValidRewrite r = true)
    (h : r.dimension = 0) : ∃ s t, r = .mk0 s t := by
  cases r with
  | mk0 s t => exact ⟨s, t, rfl⟩
  | mkI => simp [Rewrite.dimension] at h
  | mkN d cones =>
    simp [Rewrite.dimension] at h
    subst h
    simp [isValidRewrite] at hv

theorem valid_dim1_mkI (r : Rewrite) (hv : isValidRewrite r = true)
    (h : r.dimension = 1) : r = .mkI := by
  cases r with
  | mk0 s t => simp [Rewrite.dimension] at h
  | mkI => rfl
  | mkN d cones =>
    simp [Rewrite.dimension] at h
    subst h
    simp [isValidRewrite] at hv

/-- Claim C10: composing two valid rewrites whose dimensions are both
strictly greater than 1 returns the left operand unchanged, whatever the
cones of either operand are. -/
theorem composeRewrites_high_dims_left (l r : Rewrite)
    (hl : isValidRewrite l = true) (hr : isValidRewrite r = true)
    (hdl : l.dimension > 1) (hdr : r.dimension > 1) :
    composeRewrites l r = .ok l := by
  have hlI : isIdentityLike l = false := isIdentityLike_false_of_dim l (by omega)
  have hrI : isIdentityLike r = false := isIdentityLike_false_of_dim r (by omega)
  have h0l : (l.dimension == 0) = false := by
    simp only [beq_eq_false_iff_ne, ne_eq]
    omega
  have h0r : (r.dimension == 0) = false := by
    simp only [beq_eq_false_iff_ne, ne_eq]
    omega
  unfold composeRewrites
  simp [hl, hr, hlI, hrI, h0l, h0r]

/-- Claim C10 witness: two concrete valid dimension-2 rewrites. -/
theorem composeRewrites_high_dims_left_witness :
    composeRewrites (.mkN 2 []) (.mkN 3 []) = .ok (.mkN 2 []) :=
  composeRewrites_high_dims_left (.mkN 2 []) (.mkN 3 [])
    (by rfl) (by rfl) (by decide) (by decide)

/-- Claim C4 (amended): for valid 0-dimensional rewrites, a matching
boundary composes to a 0-dimensional rewrite from the left source to the
right target; a mismatch raises a CompositionError whose message is the
fixed string, which does not name the offending ids. -/
theorem composeRewrites_dim0_spec (sa ta sb tb : Generator)
    (ha : isValidRewrite (.mk0 sa ta) = true)
    (hb : isValidRewrite (.mk0 sb tb) = true) :
    (ta.id = sb.id →
      composeRewrites (.mk0 sa ta) (.mk0 sb tb) = .ok (.mk0 sa tb)) ∧
    (ta.id ≠ sb.id →
      composeRewrites (.mk0 sa ta) (.mk0 sb tb) =
        .error "Generator rewrites are not composable: target/source mismatch") := by
  constructor
  · intro heq
    unfold composeRewrites
    simp [ha, hb, isIdentityLike, Rewrite.dimension, heq, createGeneratorRewrite]
  · intro hne
    unfold composeRewrites
    simp [ha, hb, isIdentityLike, Rewrite.dimension, hne]

/-- Claim C4 witness: a matching pair composes and a mismatched pair
raises with the fixed message. -/
theorem composeRewrites_dim0_spec_witness :
    (composeRewrites (.mk0 genA genB) (.mk0 genB genC) = .ok (.mk0 genA genC)) ∧
    (composeRewrites (.mk0 genA genB) (.mk0 genC genD) =
      .error "Generator rewrites are not composable: target/source mismatch") :=
  ⟨(composeRewrites_dim0_spec genA genB genB genC (by decide) (by decide)).1 (by decide),
   (composeRewrites_dim0_spec genA genB genC genD (by decide) (by decide)).2 (by decide)⟩

/-- Claim C4 counterexample: two mismatched pairs with different offending
ids (b/c versus d/a) raise with literally the same message, so the message
cannot name the offending ids, contrary to the claim. -/
theorem composeRewrites_mismatch_message_cex :
    composeRewrites (.mk0 genA genB) (.mk0 genC genD) =
      .error "Generator rewrites are not composable: target/source mismatch" ∧
    composeRewrites (.mk0 genC genD) (.mk0 genA genB) =
      .error "Generator rewrites are not composable: target/source mismatch" ∧
    genB.id ≠ genD.id ∧ genC.id ≠ genA.id := by
  refine ⟨rfl, rfl, by decide, by decide⟩

/-- Claim C9: reduceTerms cancels an adjacent inverse pair of generator
rewrites, yielding the empty list, for any generators with distinct
non-empty ids. -/
theorem reduceTerms_cancels_inverses (A B : Generator)
    (hA : A.id ≠ "") (hB : B.id ≠ "") (_hAB : A.id ≠ B.id) :
    reduceTerms [createGeneratorRewrite A B, createGeneratorRewrite B A] = .ok [] := by
  have hvAB : isValidRewrite (.mk0 A B) = true := by
    simp [isValidRewrite, isValidGenerator, hA, hB]
  have hvBA : isValidRewrite (.mk0 B A) = true := by
    simp [isValidRewrite, isValidGenerator, hA, hB]
  unfold reduceTerms
  simp only [createGeneratorRewrite]
  unfold normalizeAll normalizeAll normalizeAll
  simp only [normalizeRewrite, hvAB, hvBA, Bool.not_true, Bool.false_eq_true, if_false]
  show reduceLoop [Rewrite.mk0 A B, Rewrite.mk0 B A] = Except.ok []
  simp [reduceLoop, isIdentityLike, areInverses]

/-- Claim C9 witness: the concrete inverse pair a to b, b to a cancels. -/
theorem reduceTerms_cancels_inverses_witness :
    reduceTerms [createGeneratorRewrite genA genB, createGeneratorRewrite genB genA] = .ok [] :=
  reduceTerms_cancels_inverses genA genB (by decide) (by decide) (by decide)

/-- Claim C3 (amended): the canonical empty diagram is a left identity for
composeDiagrams on every valid diagram; it is a right identity exactly for
diagrams not themselves tagged empty, while a 0-dimensional diagram whose
generator id is the literal empty tag composes on the right to the
canonical empty diagram instead of to itself. -/
theorem composeDiagrams_empty_identity (d : Diagram) (h : isValidDiagram d = true) :
    composeDiagrams createEmptyDiagram d = .ok d ∧
    (isEmptyDiagram d = false → composeDiagrams d createEmptyDiagram = .ok d) ∧
    (isEmptyDiagram d = true →
      composeDiagrams d createEmptyDiagram = .ok createEmptyDiagram) := by
  have hve : isValidDiagram createEmptyDiagram = true := by decide
  have hee : isEmptyDiagram createEmptyDiagram = true := by decide
  refine ⟨?_, ?_, ?_⟩
  · unfold composeDiagrams
    simp [h, hve, hee]
  · intro hne
    unfold composeDiagrams
    simp [h, hve, hee, hne]
  · intro he
    unfold composeDiagrams
    simp [h, hve, hee, he]

/-- Claim C3 witness: both identities at the concrete generator diagram a,
and the right-composition result for an empty-tagged diagram. -/
theorem composeDiagrams_empty_identity_witness :
    composeDiagrams createEmptyDiagram (.mk0 genA) = .ok (.mk0 genA) ∧
    composeDiagrams (.mk0 genA) createEmptyDiagram = .ok (.mk0 genA) :=
  ⟨(composeDiagrams_empty_identity (.mk0 genA) (by decide)).1,
   (composeDiagrams_empty_identity (.mk0 genA) (by decide)).2.1 (by decide)⟩

/-- Claim C3 counterexample: the valid 0-dimensional diagram with generator
id empty but label x is not a right fixed point: composing it with the
canonical empty diagram returns the canonical empty diagram, whose label
differs, so the two are not structurally equal. -/
theorem composeDiagrams_empty_identity_cex :
    isValidDiagram (.mk0 { id := "empty", label := some "x" }) = true ∧
    composeDiagrams (.mk0 { id := "empty", label := some "x" }) createEmptyDiagram =
      .ok createEmptyDiagram ∧
    createEmptyDiagram ≠ .mk0 { id := "empty", label := some "x" } := by
  refine ⟨by decide, rfl, ?_⟩
  intro hcontra
  have : (some "ε" : Option String) = some "x" := by
    injection hcontra with h1
    injection h1
  simp at this

theorem isValidDiagramFuel_cyclic_none :
    ∀ fuel : Nat, isValidDiagramFuel cyclicDiagHeap fuel 0 = none := by
  intro fuel
  induction fuel with
  | zero => rfl
  | succ f ih =>
    simp only [isValidDiagramFuel, cyclicDiagHeap]
    rw [ih]
    rfl

theorem validRewriteFuel_cyclic_none :
    ∀ fuel : Nat, validRewriteFuel cyclicRewHeap fuel 0 = none := by
  intro fuel
  induction fuel using Nat.strong_induction_on with
  | _ fuel ih =>
    match fuel with
    | 0 => rfl
    | 1 => rfl
    | 2 => rfl
    | 3 => rfl
    | (f + 4) =>
      simp only [validRewriteFuel, conesAllFuel, coneValidFuel, cospanValidFuel,
        cyclicRewHeap]
      rw [ih f (by omega)]
      rfl

/-- Claim C5: the structural predicates have no cycle or depth defense.  In
the heap model of aliased objects, validating the diagram that is its own
source, or the dimension-2 rewrite whose cone target leg is the rewrite
itself, returns no answer at any finite recursion budget: the TypeScript
recursion never terminates instead of returning false. -/
theorem isValid_predicates_unbounded_on_cyclic_input :
    ∀ fuel : Nat,
      isValidDiagramFuel cyclicDiagHeap fuel 0 = none ∧
      validRewriteFuel cyclicRewHeap fuel 0 = none := by
  intro fuel
  exact ⟨isValidDiagramFuel_cyclic_none fuel, validRewriteFuel_cyclic_none fuel⟩

theorem runOneRule_axiomId (d : Diagram) (a : NPRAxiom) :
    (runOneRule d a).axiomId = a.id := by
  unfold runOneRule
  cases a.validator d <;> rfl

theorem runOneRule_ok (d : Diagram) (b : NPRAxiom) (rs : List NPRValidationError)
    (h : b.validator d = .ok rs) :
    runOneRule d b =
      { axiomId := b.id,
        errors := rs.filter (fun e => e.severity == .error),
        warnings := rs.filter (fun e => e.severity == .warning) } := by
  unfold runOneRule
  rw [h]

/-- Claim C7: one throwing validator yields exactly one
AXIOM_VALIDATION_ERROR entry, scoped to that rule id, and every other
registered rule still runs with its results recorded in registry order. -/
theorem validateAllAxioms_isolates (d : Diagram) (pre post : List NPRAxiom)
    (a : NPRAxiom) (msg : String)
    (hd : isValidDiagram d = true)
    (hthrow : a.validator d = .error msg)
    (hpre : ∀ b ∈ pre, ∃ rs, b.validator d = .ok rs ∧
      ∀ e ∈ rs, e.code ≠ "AXIOM_VALIDATION_ERROR")
    (hpost : ∀ b ∈ post, ∃ rs, b.validator d = .ok rs ∧
      ∀ e ∈ rs, e.code ≠ "AXIOM_VALIDATION_ERROR") :
    ((validateAllAxioms d (pre ++ a :: post)).map (fun e => e.axiomId) =
      (pre ++ a :: post).map (fun x => x.id)) ∧
    (((validateAllAxioms d (pre ++ a :: post)).filter
        (fun e => e.errors.any (fun x => x.code == "AXIOM_VALIDATION_ERROR"))).map
        (fun e => e.axiomId) = [a.id]) ∧
    (∀ b ∈ pre ++ post, ∀ rs, b.validator d = .ok rs →
      ({ axiomId := b.id,
         errors := rs.filter (fun e => e.severity == .error),
         warnings := rs.filter (fun e => e.severity == .warning) } : AxiomResult) ∈
        validateAllAxioms d (pre ++ a :: post)) := by
  have hval : validateAllAxioms d (pre ++ a :: post) =
      (pre ++ a :: post).map (runOneRule d) := by
    unfold validateAllAxioms
    simp [hd]
  have hnoAVE : ∀ b ∈ pre ++ post,
      ((runOneRule d b).errors.any (fun x => x.code == "AXIOM_VALIDATION_ERROR")) = false := by
    intro b hb
    rcases List.mem_append.mp hb with hb | hb
    · obtain ⟨rs, hok, hcode⟩ := hpre b hb
      rw [runOneRule_ok d b rs hok]
      simp only [List.any_eq_false]
      intro e he
      have := hcode e (List.mem_of_mem_filter he)
      simpa using this
    · obtain ⟨rs, hok, hcode⟩ := hpost b hb
      rw [runOneRule_ok d b rs hok]
      simp only [List.any_eq_false]
      intro e he
      have := hcode e (List.mem_of_mem_filter he)
      simpa using this
  have haAVE : ((runOneRule d a).errors.any
      (fun x => x.code == "AXIOM_VALIDATION_ERROR")) = true := by
    unfold runOneRule
    rw [hthrow]
    simp
  refine ⟨?_, ?_, ?_⟩
  · rw [hval, List.map_map]
    apply List.map_congr_left
    intro b _
    exact runOneRule_axiomId d b
  · rw [hval]
    rw [List.map_append, List.map_cons, List.filter_append, List.filter_cons]
    have hprefilter :
        ((pre.map (runOneRule d)).filter
          (fun e => e.errors.any (fun x => x.code == "AXIOM_VALIDATION_ERROR"))) = [] := by
      apply List.filter_eq_nil_iff.mpr
      intro e he
      obtain ⟨b, hb, rfl⟩ := List.mem_map.mp he
      simp [hnoAVE b (List.mem_append.mpr (Or.inl hb))]
    have hpostfilter :
        ((post.map (runOneRule d)).filter
          (fun e => e.errors.any (fun x => x.code == "AXIOM_VALIDATION_ERROR"))) = [] := by
      apply List.filter_eq_nil_iff.mpr
      intro e he
      obtain ⟨b, hb, rfl⟩ := List.mem_map.mp he
      simp [hnoAVE b (List.mem_append.mpr (Or.inr hb))]
    rw [hprefilter, haAVE, hpostfilter]
    simp [runOneRule_axiomId]
  · intro b hb rs hok
    rw [hval]
    apply List.mem_map.mpr
    refine ⟨b, ?_, runOneRule_ok d b rs hok⟩
    rcases List.mem_append.mp hb with hb | hb
    · exact List.mem_append.mpr (Or.inl hb)
    · exact List.mem_append.mpr (Or.inr (List.mem_cons_of_mem a hb))

/-- Claim C7 witness: registry with a well-behaved structural rule, a
throwing rule, and a warning rule on the generator diagram a. -/
theorem validateAllAxioms_isolates_witness :
    ((validateAllAxioms (.mk0 genA) [ruleOkEmpty, ruleThrowing, ruleWarn]).map
      (fun e => e.axiomId) = ["good-structural", "bad-rule", "good-warning"]) ∧
    (((validateAllAxioms (.mk0 genA) [ruleOkEmpty, ruleThrowing, ruleWarn]).filter
        (fun e => e.errors.any (fun x => x.code == "AXIOM_VALIDATION_ERROR"))).map
        (fun e => e.axiomId) = ["bad-rule"]) := by
  have h := validateAllAxioms_isolates (.mk0 genA) [ruleOkEmpty] [ruleWarn]
    ruleThrowing "boom" (by decide) rfl
    (by
      intro b hb
      rw [List.mem_singleton] at hb
      subst hb
      exact ⟨[], rfl, by simp⟩)
    (by
      intro b hb
      rw [List.mem_singleton] at hb
      subst hb
      refine ⟨[{ code := "W1", message := "heads up", severity := .warning }], rfl, ?_⟩
      intro e he
      rw [List.mem_singleton] at he
      subst he
      decide)
  exact ⟨h.1, h.2.1⟩

theorem threeFilterPerm (axioms : List NPRAxiom) :
    List.Perm
      (axioms.filter (fun a => a.category == RuleCategory.structural) ++
       (axioms.filter (fun a => a.category == RuleCategory.cartesian) ++
        axioms.filter (fun a => a.category == RuleCategory.cocartesian)))
      axioms := by
  induction axioms with
  | nil => simp
  | cons a rest ih =>
    cases hcat : a.category with
    | structural =>
      simp only [List.filter_cons, hcat]
      simpa using ih.cons a
    | cartesian =>
      simp only [List.filter_cons, hcat]
      simp only [show (RuleCategory.cartesian == RuleCategory.structural) = false from rfl,
        show (RuleCategory.cartesian == RuleCategory.cartesian) = true from rfl,
        show (RuleCategory.cartesian == RuleCategory.cocartesian) = false from rfl,
        if_true, if_false, Bool.false_eq_true, List.cons_append]
      exact List.Perm.trans List.perm_middle (ih.cons a)
    | cocartesian =>
      simp only [List.filter_cons, hcat]
      simp only [show (RuleCategory.cocartesian == RuleCategory.structural) = false from rfl,
        show (RuleCategory.cocartesian == RuleCategory.cartesian) = false from rfl,
        show (RuleCategory.cocartesian == RuleCategory.cocartesian) = true from rfl,
        if_true, if_false, Bool.false_eq_true]
      rw [← List.append_assoc]
      refine List.Perm.trans List.perm_middle ?_
      rw [List.append_assoc]
      exact ih.cons a

theorem threeFilterPermSwap (axioms : List NPRAxiom) :
    List.Perm
      (axioms.filter (fun a => a.category == RuleCategory.structural) ++
       (axioms.filter (fun a => a.category == RuleCategory.cocartesian) ++
        axioms.filter (fun a => a.category == RuleCategory.cartesian)))
      axioms := by
  refine List.Perm.trans (List.Perm.append_left _ List.perm_append_comm) ?_
  exact threeFilterPerm axioms

/-- Claim C8 (amended): on a valid diagram, optimizeValidationOrder
returns the input axioms reordered with all structural axioms first and
preserves exactly the set of input axioms, and validating in the reordered
sequence produces the same per-rule results (a permutation of the report
entries); however the polar category placed first follows the generator
polarity only when the diagram itself is 0-dimensional — for any higher
dimension cartesian axioms come first regardless of the root polarity. -/
theorem optimizeValidationOrder_props (axioms : List NPRAxiom) (d : Diagram)
    (hd : isValidDiagram d = true) :
    ∃ l, optimizeValidationOrder axioms d = .ok l ∧
      List.Perm l axioms ∧
      List.Perm (validateAllAxioms d l) (validateAllAxioms d axioms) ∧
      l = axioms.filter (fun a => a.category == RuleCategory.structural) ++
        (match d with
         | .mk0 g =>
           if g.color == some Color.cocartesian then
             axioms.filter (fun a => a.category == RuleCategory.cocartesian) ++
             axioms.filter (fun a => a.category == RuleCategory.cartesian)
           else
             axioms.filter (fun a => a.category == RuleCategory.cartesian) ++
             axioms.filter (fun a => a.category == RuleCategory.cocartesian)
         | .mkN _ _ _ =>
             axioms.filter (fun a => a.category == RuleCategory.cartesian) ++
             axioms.filter (fun a => a.category == RuleCategory.cocartesian)) := by
  have hvmap : ∀ l : List NPRAxiom, List.Perm l axioms →
      List.Perm (validateAllAxioms d l) (validateAllAxioms d axioms) := by
    intro l hperm
    unfold validateAllAxioms
    simp only [hd, Bool.not_true, Bool.false_eq_true, if_false]
    exact hperm.map (runOneRule d)
  cases d with
  | mk0 g =>
    cases hc : g.color with
    | none =>
      refine ⟨_, ?_, threeFilterPerm axioms, hvmap _ (threeFilterPerm axioms), ?_⟩
      · unfold optimizeValidationOrder
        simp [Diagram.dimension, hc]
      · simp [hc]
    | some col =>
      cases col with
      | cartesian =>
        refine ⟨_, ?_, threeFilterPerm axioms, hvmap _ (threeFilterPerm axioms), ?_⟩
        · unfold optimizeValidationOrder
          simp [Diagram.dimension, hc]
        · simp [hc]
      | cocartesian =>
        refine ⟨_, ?_, threeFilterPermSwap axioms, hvmap _ (threeFilterPermSwap axioms), ?_⟩
        · unfold optimizeValidationOrder
          simp [Diagram.dimension, hc]
        · simp [hc]
  | mkN dim s cs =>
    have hdim : (dim == 0) = false := by
      by_contra hcontra
      have : (dim == 0) = true := by
        cases h : (dim == 0) with
        | true => rfl
        | false => exact absurd h hcontra
      rw [isValidDiagram, this] at hd
      simp at hd
    refine ⟨_, ?_, threeFilterPerm axioms, hvmap _ (threeFilterPerm axioms), rfl⟩
    unfold optimizeValidationOrder
    simp only [Diagram.dimension, hdim, Bool.false_eq_true, if_false]
    rw [List.append_assoc]

/-- Claim C8 witness: the valid generator diagram a with one rule of each
category. -/
theorem optimizeValidationOrder_props_witness :
    ∃ l, optimizeValidationOrder [ruleCart, ruleCocart, ruleOkEmpty] (.mk0 genA) = .ok l ∧
      List.Perm l [ruleCart, ruleCocart, ruleOkEmpty] ∧
      List.Perm (validateAllAxioms (.mk0 genA) l)
        (validateAllAxioms (.mk0 genA) [ruleCart, ruleCocart, ruleOkEmpty]) ∧
      l = ([ruleCart, ruleCocart, ruleOkEmpty].filter
            (fun a => a.category == RuleCategory.structural)) ++
          (([ruleCart, ruleCocart, ruleOkEmpty].filter
            (fun a => a.category == RuleCategory.cartesian)) ++
           ([ruleCart, ruleCocart, ruleOkEmpty].filter
            (fun a => a.category == RuleCategory.cocartesian))) := by
  have h := optimizeValidationOrder_props [ruleCart, ruleCocart, ruleOkEmpty]
    (.mk0 genA) (by decide)
  simpa using h

/-- Claim C8 counterexample: on a valid 1-dimensional diagram whose
dimension-0 root generator is cocartesian, the code puts the cartesian
rule before the cocartesian one, while the claimed root-polarity ordering
(claimOptimizeValidationOrder, modelled from the spec wording) puts the
cocartesian rule first; the two orders differ. -/
theorem optimizeValidationOrder_root_polarity_cex :
    (optimizeValidationOrder [ruleCart, ruleCocart] cocartRootDiagram).map
      (fun l => l.map (fun a => a.id)) = .ok ["cart-rule", "cocart-rule"] ∧
    (claimOptimizeValidationOrder [ruleCart, ruleCocart] cocartRootDiagram).map
      (fun a => a.id) = ["cocart-rule", "cart-rule"] ∧
    (["cart-rule", "cocart-rule"] : List String) ≠ ["cocart-rule", "cart-rule"] := by
  refine ⟨rfl, rfl, by decide⟩

theorem validRewrite_mkN (d : Int) (cones : List Cone) :
    isValidRewrite (.mkN d cones) = (decide (d > 1) && allConesValid cones) := by
  rw [isValidRewrite]
  split_ifs with h0 h1 h2
  · simp only [beq_iff_eq] at h0
    subst h0
    simp
  · simp only [beq_iff_eq] at h1
    subst h1
    simp
  · have : ¬(d > 1) := by omega
    simp [this]
  · have hgt : d > 1 := by
      simp only [beq_iff_eq] at h0 h1
      omega
    simp [hgt]

theorem validDiagram_mkN (d : Int) (s : Diagram) (cs : List Cospan) :
    isValidDiagram (.mkN d s cs) = (decide (d > 0) && isValidDiagram s) := by
  rw [isValidDiagram]
  split_ifs with h0 h1
  · simp only [beq_iff_eq] at h0
    subst h0
    simp
  · have : ¬(d > 0) := by omega
    simp [this]
  · have hgt : d > 0 := by
      simp only [beq_iff_eq] at h0
      omega
    simp [hgt]

mutual
theorem normalizeRewrite_spec (r : Rewrite) (h : isValidRewrite r = true) :
    ∃ r2, normalizeRewrite r = .ok r2 ∧ isValidRewrite r2 = true ∧
      normalizeRewrite r2 = .ok r2 := by
  cases r with
  | mk0 s t =>
    exact ⟨.mk0 s t, by rw [normalizeRewrite]; simp [h], h, by rw [normalizeRewrite]; simp [h]⟩
  | mkI => exact ⟨.mkI, rfl, rfl, rfl⟩
  | mkN d cones =>
    rw [validRewrite_mkN, Bool.and_eq_true, decide_eq_true_eq] at h
    obtain ⟨hd, hcones⟩ := h
    obtain ⟨cs2, hcs1, hcs2, hcs3⟩ := normListCones_spec cones hcones
    have hv2 : isValidRewrite (.mkN d cs2) = true := by
      rw [validRewrite_mkN, Bool.and_eq_true, decide_eq_true_eq]
      exact ⟨hd, hcs2⟩
    have hv1 : isValidRewrite (.mkN d cones) = true := by
      rw [validRewrite_mkN, Bool.and_eq_true, decide_eq_true_eq]
      exact ⟨hd, hcones⟩
    refine ⟨.mkN d cs2, ?_, hv2, ?_⟩
    · rw [normalizeRewrite]
      simp [hv1, hd, hcs1]
    · rw [normalizeRewrite]
      simp [hv2, hd, hcs3]

theorem normListCones_spec (cs : List Cone) (h : allConesValid cs = true) :
    ∃ cs2, normListCones cs = .ok cs2 ∧ allConesValid cs2 = true ∧
      normListCones cs2 = .ok cs2 := by
  match cs with
  | [] => exact ⟨[], rfl, rfl, rfl⟩
  | c :: rest =>
    rw [allConesValid, Bool.and_eq_true] at h
    obtain ⟨c2, hc1, hc2, hc3⟩ := normalizeCone_spec c h.1
    obtain ⟨rest2, hr1, hr2, hr3⟩ := normListCones_spec rest h.2
    refine ⟨c2 :: rest2, ?_, ?_, ?_⟩
    · rw [normListCones, hc1, hr1]
      rfl
    · rw [allConesValid, Bool.and_eq_true]
      exact ⟨hc2, hr2⟩
    · rw [normListCones, hc3, hr3]
      rfl

theorem normalizeCone_spec (c : Cone) (h : isValidCone c = true) :
    ∃ c2, normalizeCone c = .ok c2 ∧ isValidCone c2 = true ∧
      normalizeCone c2 = .ok c2 := by
  match c with
  | .mk i src tgt sl =>
    rw [isValidCone, Bool.and_eq_true, Bool.and_eq_true, Bool.and_eq_true] at h
    obtain ⟨⟨⟨hi, htgt⟩, hsrc⟩, hsl⟩ := h
    obtain ⟨src2, hs1, hs2, hs3⟩ := normListCospans_spec src hsrc
    obtain ⟨tgt2, ht1, ht2, ht3⟩ := normalizeCospan_spec tgt htgt
    obtain ⟨sl2, hl1, hl2, hl3⟩ := normListRewrites_spec sl hsl
    refine ⟨.mk i src2 tgt2 sl2, ?_, ?_, ?_⟩
    · rw [normalizeCone, hs1, ht1, hl1]
      rfl
    · rw [isValidCone, Bool.and_eq_true, Bool.and_eq_true, Bool.and_eq_true]
      exact ⟨⟨⟨hi, ht2⟩, hs2⟩, hl2⟩
    · rw [normalizeCone, hs3, ht3, hl3]
      rfl

theorem normalizeCospan_spec (c : Cospan) (h : isValidCospan c = true) :
    ∃ c2, normalizeCospan c = .ok c2 ∧ isValidCospan c2 = true ∧
      normalizeCospan c2 = .ok c2 := by
  match c with
  | .mk f b =>
    rw [isValidCospan, Bool.and_eq_true] at h
    obtain ⟨f2, hf1, hf2, hf3⟩ := normalizeRewrite_spec f h.1
    obtain ⟨b2, hb1, hb2, hb3⟩ := normalizeRewrite_spec b h.2
    refine ⟨.mk f2 b2, ?_, ?_, ?_⟩
    · rw [normalizeCospan, hf1, hb1]
      rfl
    · rw [isValidCospan, Bool.and_eq_true]
      exact ⟨hf2, hb2⟩
    · rw [normalizeCospan, hf3, hb3]
      rfl

theorem normListCospans_spec (cs : List Cospan) (h : allCospansValid cs = true) :
    ∃ cs2, normListCospans cs = .ok cs2 ∧ allCospansValid cs2 = true ∧
      normListCospans cs2 = .ok cs2 := by
  match cs with
  | [] => exact ⟨[], rfl, rfl, rfl⟩
  | c :: rest =>
    rw [allCospansValid, Bool.and_eq_true] at h
    obtain ⟨c2, hc1, hc2, hc3⟩ := normalizeCospan_spec c h.1
    obtain ⟨rest2, hr1, hr2, hr3⟩ := normListCospans_spec rest h.2
    refine ⟨c2 :: rest2, ?_, ?_, ?_⟩
    · rw [normListCospans, hc1, hr1]
      rfl
    · rw [allCospansValid, Bool.and_eq_true]
      exact ⟨hc2, hr2⟩
    · rw [normListCospans, hc3, hr3]
      rfl

theorem normListRewrites_spec (rs : List Rewrite) (h : allRewritesValid rs = true) :
    ∃ rs2, normListRewrites rs = .ok rs2 ∧ allRewritesValid rs2 = true ∧
      normListRewrites rs2 = .ok rs2 := by
  match rs with
  | [] => exact ⟨[], rfl, rfl, rfl⟩
  | r :: rest =>
    rw [allRewritesValid, Bool.and_eq_true] at h
    obtain ⟨r2, hr1, hr2, hr3⟩ := normalizeRewrite_spec r h.1
    obtain ⟨rest2, hs1, hs2, hs3⟩ := normListRewrites_spec rest h.2
    refine ⟨r2 :: rest2, ?_, ?_, ?_⟩
    · rw [normListRewrites, hr1, hs1]
      rfl
    · rw [allRewritesValid, Bool.and_eq_true]
      exact ⟨hr2, hs2⟩
    · rw [normListRewrites, hr3, hs3]
      rfl
end

theorem checkCycles_mono (d : Diagram) :
    ∀ m n : Nat, m ≤ n → checkCycles d n = true → checkCycles d m = true := by
  induction d with
  | mk0 g =>
    intro m n hmn h
    rw [checkCycles] at h ⊢
    simp only [decide_eq_true_eq] at h ⊢
    omega
  | mkN dim s cs ih =>
    intro m n hmn h
    rw [checkCycles] at h ⊢
    have hn : ¬(n > 100) := by
      by_contra hcon
      simp [hcon] at h
    have hm : ¬(m > 100) := by omega
    simp only [hn, if_false, hm] at h ⊢
    by_cases hdim : dim > 0
    · simp only [hdim, if_true] at h ⊢
      exact ih (m + 1) (n + 1) (by omega) h
    · simp [hdim]

theorem normMapCospans_spec (cs : List Cospan) :
    ∃ cs2, normMapCospans cs = .ok cs2 ∧
      ∀ c ∈ cs2, isValidCospan c = true → normalizeCospan c = .ok c := by
  induction cs with
  | nil => exact ⟨[], rfl, by intro c hc; cases hc⟩
  | cons c rest ih =>
    obtain ⟨rest2, hr1, hr2⟩ := ih
    by_cases hv : isValidCospan c = true
    · obtain ⟨c2, hc1, hc2, hc3⟩ := normalizeCospan_spec c hv
      refine ⟨c2 :: rest2, ?_, ?_⟩
      · rw [normMapCospans]
        simp only [hv, if_true, hc1, hr1]
        rfl
      · intro x hx
        rcases List.mem_cons.mp hx with rfl | hx
        · intro _
          exact hc3
        · exact hr2 x hx
    · refine ⟨c :: rest2, ?_, ?_⟩
      · rw [normMapCospans]
        simp only [hv, if_false, hr1]
        rfl
      · intro x hx
        rcases List.mem_cons.mp hx with rfl | hx
        · intro hvx
          exact absurd hvx hv
        · exact hr2 x hx

theorem normMapCospans_id (l : List Cospan)
    (h : ∀ c ∈ l, isValidCospan c = true → normalizeCospan c = .ok c) :
    normMapCospans l = .ok l := by
  induction l with
  | nil => rfl
  | cons c rest ih =>
    rw [normMapCospans]
    have hrest : normMapCospans rest = .ok rest :=
      ih (fun x hx => h x (List.mem_cons_of_mem c hx))
    by_cases hv : isValidCospan c = true
    · simp only [hv, if_true, h c (List.mem_cons_self c rest) hv, hrest]
      rfl
    · simp only [hv, if_false, hrest]
      rfl

theorem reduceRedundantCospans_idem (l : List Cospan) :
    reduceRedundantCospans (reduceRedundantCospans l) = reduceRedundantCospans l := by
  unfold reduceRedundantCospans
  apply List.filter_eq_self.mpr
  intro c hc
  exact (List.mem_filter.mp hc).2

theorem normalizeDiagram_spec (d : Diagram) (h1 : isValidDiagram d = true)
    (h2 : checkCycles d 0 = true) :
    ∃ r, normalizeDiagram d = .ok r ∧ isValidDiagram r = true ∧
      r.dimension = d.dimension ∧
      (∀ n, checkCycles d n = true → checkCycles r n = true) ∧
      normalizeDiagram r = .ok r := by
  induction d with
  | mk0 g =>
    refine ⟨.mk0 g, ?_, h1, rfl, fun n h => h, ?_⟩ <;>
      · rw [normalizeDiagram]
        simp [h1, h2]
  | mkN dim s cs ih =>
    rw [validDiagram_mkN, Bool.and_eq_true, decide_eq_true_eq] at h1
    obtain ⟨hdim, hs⟩ := h1
    have hs1 : checkCycles s 1 = true := by
      rw [checkCycles] at h2
      simpa [hdim] using h2
    have hs0 : checkCycles s 0 = true := checkCycles_mono s 0 1 (by omega) hs1
    obtain ⟨ns, hn1, hn2, hn3, hn4, hn5⟩ := ih hs hs0
    obtain ⟨cs2, hmap, hfix⟩ := normMapCospans_spec cs
    have hdim0 : (dim == 0) = false := by
      simp only [beq_eq_false_iff_ne, ne_eq]
      omega
    have hvd : isValidDiagram (.mkN dim s cs) = true := by
      rw [validDiagram_mkN, Bool.and_eq_true, decide_eq_true_eq]
      exact ⟨hdim, hs⟩
    set kept := reduceRedundantCospans cs2 with hkept
    have hkeptfix : ∀ c ∈ kept, isValidCospan c = true → normalizeCospan c = .ok c := by
      intro c hc
      exact hfix c (List.mem_of_mem_filter hc)
    have hkeptvalid : ∀ c ∈ kept, isValidCospan c = true := by
      intro c hc
      have := (List.mem_filter.mp hc).2
      rw [Bool.and_eq_true] at this
      exact this.1
    have hvr : isValidDiagram (.mkN dim ns kept) = true := by
      rw [validDiagram_mkN, Bool.and_eq_true, decide_eq_true_eq]
      exact ⟨hdim, hn2⟩
    have hccr : ∀ n, checkCycles (.mkN dim s cs) n = true →
        checkCycles (.mkN dim ns kept) n = true := by
      intro n hcc
      rw [checkCycles] at hcc ⊢
      have hn100 : ¬(n > 100) := by
        by_contra hcon
        simp [hcon] at hcc
      simp only [hn100, if_false, hdim, if_true] at hcc ⊢
      exact hn4 (n + 1) hcc
    refine ⟨.mkN dim ns kept, ?_, hvr, by simp [Diagram.dimension], hccr, ?_⟩
    · rw [normalizeDiagram]
      simp only [hvd, h2, hdim0, Bool.not_true, Bool.false_eq_true, if_false,
        Bool.not_false, if_true, hn1, hmap]
      rfl
    · rw [normalizeDiagram]
      have hccr0 : checkCycles (.mkN dim ns kept) 0 = true := hccr 0 h2
      simp only [hvr, hccr0, hdim0, Bool.not_true, Bool.false_eq_true, if_false,
        Bool.not_false, if_true, hn5, normMapCospans_id kept hkeptfix]
      show Except.ok (Diagram.mkN dim ns (reduceRedundantCospans kept)) =
        Except.ok (Diagram.mkN dim ns kept)
      rw [hkept, reduceRedundantCospans_idem]

theorem normalizeDiagram_ok_checks (d : Diagram) (r : Diagram)
    (h : normalizeDiagram d = .ok r) :
    isValidDiagram d = true ∧ checkCycles d 0 = true := by
  cases d with
  | mk0 g =>
    rw [normalizeDiagram] at h
    by_cases hv : isValidDiagram (.mk0 g) = true
    · by_cases hc : checkCycles (.mk0 g) 0 = true
      · exact ⟨hv, hc⟩
      · simp only [hv, Bool.not_true, Bool.false_eq_true, if_false] at h
        rw [Bool.not_eq_true] at hc
        simp [hc] at h
    · rw [Bool.not_eq_true] at hv
      simp [hv] at h
  | mkN dim s cs =>
    rw [normalizeDiagram] at h
    by_cases hv : isValidDiagram (.mkN dim s cs) = true
    · by_cases hc : checkCycles (.mkN dim s cs) 0 = true
      · exact ⟨hv, hc⟩
      · simp only [hv, Bool.not_true, Bool.false_eq_true, if_false] at h
        rw [Bool.not_eq_true] at hc
        simp [hc] at h
    · rw [Bool.not_eq_true] at hv
      simp [hv] at h

/-- Claim C2: normalizeDiagram is idempotent on the diagrams it accepts:
whenever a structurally valid diagram normalizes successfully, normalizing
the result returns it unchanged. -/
theorem normalizeDiagram_idempotent (d r : Diagram)
    (_h : isValidDiagram d = true) (hr : normalizeDiagram d = .ok r) :
    normalizeDiagram r = .ok r := by
  obtain ⟨hv, hc⟩ := normalizeDiagram_ok_checks d r hr
  obtain ⟨r2, hr2, _, _, _, hfix⟩ := normalizeDiagram_spec d hv hc
  rw [hr2] at hr
  injection hr with heq
  rw [← heq]
  exact hfix

/-- Claim C2 witness: a concrete 1-dimensional diagram with one redundant
cospan normalizes to the cospan-free diagram, and normalizing that result
returns it unchanged. -/
theorem normalizeDiagram_idempotent_witness :
    normalizeDiagram (.mkN 1 (.mk0 genA) []) = .ok (.mkN 1 (.mk0 genA) []) :=
  normalizeDiagram_idempotent
    (.mkN 1 (.mk0 genA) [Cospan.mk .mkI .mkI])
    (.mkN 1 (.mk0 genA) [])
    (by rfl) (by rfl)

theorem normalizeRewrite_coneFree (r : Rewrite) (hv : isValidRewrite r = true)
    (hf : coneFreeLeg r = true) : normalizeRewrite r = .ok r := by
  rw [coneFreeLeg, Bool.or_eq_true, beq_iff_eq, beq_iff_eq] at hf
  rcases hf with hf | hf
  · obtain ⟨s, t, rfl⟩ := valid_dim0_mk0 r hv hf
    rw [normalizeRewrite]
    simp [hv]
  · rw [valid_dim1_mkI r hv hf]
    rfl

theorem normalizeCospan_coneFree (c : Cospan) (hv : isValidCospan c = true)
    (hf : coneFreeLeg c.forward = true) (hb : coneFreeLeg c.backward = true) :
    normalizeCospan c = .ok c := by
  match c with
  | .mk f b =>
    rw [isValidCospan, Bool.and_eq_true] at hv
    rw [normalizeCospan,
      normalizeRewrite_coneFree f hv.1 hf,
      normalizeRewrite_coneFree b hv.2 hb]
    rfl

theorem isRewriteInNormalForm_coneFree (r : Rewrite) (hv : isValidRewrite r = true)
    (hf : coneFreeLeg r = true) : isRewriteInNormalForm r = true := by
  rw [coneFreeLeg, Bool.or_eq_true, beq_iff_eq, beq_iff_eq] at hf
  rcases hf with hf | hf
  · obtain ⟨s, t, rfl⟩ := valid_dim0_mk0 r hv hf
    rw [isRewriteInNormalForm]
    have hbeta : performBetaReduction (.mk0 s t) = .ok (.mk0 s t) := by
      rw [performBetaReduction]
      simp [hv]
    simp only [hv, Bool.not_true, Bool.false_eq_true, if_false, hbeta]
    rw [rewritesEqual]
    simp [Rewrite.dimension]
  · rw [valid_dim1_mkI r hv hf]
    rfl

theorem allCospansNormal_of (l : List Cospan)
    (h : ∀ c ∈ l, isValidCospan c = true →
      (isRewriteInNormalForm c.forward = true ∧ isRewriteInNormalForm c.backward = true)) :
    allCospansNormal l = true := by
  induction l with
  | nil => rfl
  | cons c rest ih =>
    rw [allCospansNormal, Bool.and_eq_true]
    refine ⟨?_, ih (fun x hx => h x (List.mem_cons_of_mem c hx))⟩
    by_cases hv : isValidCospan c = true
    · obtain ⟨h1, h2⟩ := h c (List.mem_cons_self c rest) hv
      simp [hv, h1, h2]
    · rw [Bool.not_eq_true] at hv
      simp [hv]

theorem adjacentRedundant_false (l : List Cospan)
    (h : ∀ c ∈ l, isRedundantCospan c = false) :
    adjacentRedundant l = false := by
  match l with
  | [] => rfl
  | [c] => rfl
  | c1 :: c2 :: rest =>
    rw [adjacentRedundant, Bool.or_eq_false_iff]
    constructor
    · have h1 := h c1 (List.mem_cons_self c1 (c2 :: rest))
      have h2 := h c2 (List.mem_cons_of_mem c1 (List.mem_cons_self c2 rest))
      by_cases hv : (isValidCospan c1 && isValidCospan c2) = true
      · simp [hv, h1, h2]
      · rw [Bool.not_eq_true] at hv
        simp [hv]
    · exact adjacentRedundant_false (c2 :: rest)
        (fun x hx => h x (List.mem_cons_of_mem c1 hx))

/-- Claim C1 (amended): on a structurally valid diagram whose source chain
stays within the 100-level recursion budget and whose valid cospans all
have legs of dimension at most 1, normalizeDiagram succeeds and its result
satisfies isNormalForm. -/
theorem normalizeDiagram_normalForm (d : Diagram)
    (h1 : isValidDiagram d = true) (h2 : checkCycles d 0 = true)
    (h3 : coneFreeCospans d = true) :
    ∃ r, normalizeDiagram d = .ok r ∧ isNormalForm r = true := by
  induction d with
  | mk0 g =>
    refine ⟨.mk0 g, ?_, ?_⟩
    · rw [normalizeDiagram]
      simp [h1, h2]
    · rw [isNormalForm]
      exact h1
  | mkN dim s cs ih =>
    rw [validDiagram_mkN, Bool.and_eq_true, decide_eq_true_eq] at h1
    obtain ⟨hdim, hs⟩ := h1
    rw [coneFreeCospans, Bool.and_eq_true] at h3
    obtain ⟨h3s, h3cs⟩ := h3
    have hs1 : checkCycles s 1 = true := by
      rw [checkCycles] at h2
      simpa [hdim] using h2
    have hs0 : checkCycles s 0 = true := checkCycles_mono s 0 1 (by omega) hs1
    obtain ⟨ns, hn1, hnf⟩ := ih hs hs0 h3s
    have hnsvalid : isValidDiagram ns = true := by
      obtain ⟨ns2, hns2, hv2, _, _, _⟩ := normalizeDiagram_spec s hs hs0
      rw [hn1] at hns2
      injection hns2 with heq
      rw [heq]
      exact hv2
    have hcsfree : ∀ c ∈ cs, isValidCospan c = true →
        (coneFreeLeg c.forward = true ∧ coneFreeLeg c.backward = true) := by
      intro c hc hv
      have := (List.all_eq_true.mp h3cs) c hc
      rw [Bool.or_eq_true, Bool.and_eq_true] at this
      rcases this with hbad | hgood
      · rw [Bool.not_eq_eq_eq_not, Bool.not_true] at hbad
        exact absurd hv (by simp [hbad])
      · exact hgood
    have hmapid : normMapCospans cs = .ok cs := by
      apply normMapCospans_id
      intro c hc hv
      obtain ⟨hf, hb⟩ := hcsfree c hc hv
      exact normalizeCospan_coneFree c hv hf hb
    have hdim0 : (dim == 0) = false := by
      simp only [beq_eq_false_iff_ne, ne_eq]
      omega
    have hvd : isValidDiagram (.mkN dim s cs) = true := by
      rw [validDiagram_mkN, Bool.and_eq_true, decide_eq_true_eq]
      exact ⟨hdim, hs⟩
    set kept := reduceRedundantCospans cs with hkeptdef
    have hvr : isValidDiagram (.mkN dim ns kept) = true := by
      rw [validDiagram_mkN, Bool.and_eq_true, decide_eq_true_eq]
      exact ⟨hdim, hnsvalid⟩
    refine ⟨.mkN dim ns kept, ?_, ?_⟩
    · rw [normalizeDiagram]
      simp only [hvd, h2, hdim0, Bool.not_true, Bool.false_eq_true, if_false,
        Bool.not_false, if_true, hn1, hmapid]
      rfl
    · rw [isNormalForm]
      rw [Bool.and_eq_true, Bool.and_eq_true, Bool.and_eq_true]
      refine ⟨⟨⟨hvr, hnf⟩, ?_⟩, ?_⟩
      · apply allCospansNormal_of
        intro c hc hv
        have hmem : c ∈ cs := List.mem_of_mem_filter hc
        obtain ⟨hf, hb⟩ := hcsfree c hmem hv
        match c with
        | .mk f b =>
          rw [isValidCospan, Bool.and_eq_true] at hv
          exact ⟨isRewriteInNormalForm_coneFree f hv.1 hf,
                 isRewriteInNormalForm_coneFree b hv.2 hb⟩
      · rw [hasReduciblePatterns]
        rw [Bool.not_eq_eq_eq_not, Bool.not_true]
        apply adjacentRedundant_false
        intro c hc
        have := (List.mem_filter.mp hc).2
        rw [Bool.and_eq_true] at this
        simpa using this.2

/-- Claim C1 witness: a concrete valid 1-dimensional diagram with one
generator cospan normalizes successfully to a normal form. -/
theorem normalizeDiagram_normalForm_witness :
    ∃ r, normalizeDiagram
      (.mkN 1 (.mk0 genA) [Cospan.mk (.mk0 genA genB) (.mk0 genB genA)]) = .ok r ∧
      isNormalForm r = true :=
  normalizeDiagram_normalForm
    (.mkN 1 (.mk0 genA) [Cospan.mk (.mk0 genA genB) (.mk0 genB genA)])
    (by rfl) (by rfl) (by rfl)

set_option maxRecDepth 40000 in
/-- Claim C1 counterexample: the valid diagram with a 2-dimensional cospan
leg normalizes successfully to itself yet fails isNormalForm (rewritesEqual
compares any dimension above 1 as different, so the leg can never be
beta-normal); and the valid 102-level diagram makes normalizeDiagram throw
its depth error instead of succeeding. -/
theorem normalizeDiagram_claim_cex :
    isValidDiagram coneLegDiagram = true ∧
    normalizeDiagram coneLegDiagram = .ok coneLegDiagram ∧
    isNormalForm coneLegDiagram = false ∧
    isValidDiagram (deepDiagram 102) = true ∧
    normalizeDiagram (deepDiagram 102) =
      .error "Maximum normalization depth exceeded - possible cycle detected" := by
  exact ⟨rfl, rfl, rfl, rfl, rfl⟩

mutual
theorem contractRewrite_spec (r : Rewrite) (h : isValidRewrite r = true) :
    ∃ r2, contractRewrite r = .ok r2 ∧ isValidRewrite r2 = true ∧
      r2.dimension = r.dimension ∧ contractRewrite r2 = .ok r2 := by
  cases r with
  | mk0 s t =>
    exact ⟨.mk0 s t, by rw [contractRewrite]; simp [h], h, rfl,
      by rw [contractRewrite]; simp [h]⟩
  | mkI => exact ⟨.mkI, rfl, rfl, rfl, rfl⟩
  | mkN d cones =>
    rw [validRewrite_mkN, Bool.and_eq_true, decide_eq_true_eq] at h
    obtain ⟨hd, hcones⟩ := h
    obtain ⟨cs2, hcs1, hcs2, hcs3⟩ := contractListCones_spec cones hcones
    have hv1 : isValidRewrite (.mkN d cones) = true := by
      rw [validRewrite_mkN, Bool.and_eq_true, decide_eq_true_eq]
      exact ⟨hd, hcones⟩
    have hv2 : isValidRewrite (.mkN d cs2) = true := by
      rw [validRewrite_mkN, Bool.and_eq_true, decide_eq_true_eq]
      exact ⟨hd, hcs2⟩
    have hdno : ((d == 0) || (d == 1)) = false := by
      simp only [Bool.or_eq_false_iff, beq_eq_false_iff_ne, ne_eq]
      constructor <;> omega
    refine ⟨.mkN d cs2, ?_, hv2, rfl, ?_⟩
    · rw [contractRewrite]
      simp only [hv1, Bool.not_true, Bool.false_eq_true, if_false, Bool.not_false, if_true,
        hdno, hcs1]
      rfl
    · rw [contractRewrite]
      simp only [hv2, Bool.not_true, Bool.false_eq_true, if_false, Bool.not_false, if_true,
        hdno, hcs3]
      rfl

theorem contractListCones_spec (cs : List Cone) (h : allConesValid cs = true) :
    ∃ cs2, contractListCones cs = .ok cs2 ∧ allConesValid cs2 = true ∧
      contractListCones cs2 = .ok cs2 := by
  match cs with
  | [] => exact ⟨[], rfl, rfl, rfl⟩
  | c :: rest =>
    rw [allConesValid, Bool.and_eq_true] at h
    obtain ⟨c2, hc1, hc2, hc3⟩ := contractCone_spec c h.1
    obtain ⟨rest2, hr1, hr2, hr3⟩ := contractListCones_spec rest h.2
    refine ⟨c2 :: rest2, ?_, ?_, ?_⟩
    · rw [contractListCones, hc1, hr1]
      rfl
    · rw [allConesValid, Bool.and_eq_true]
      exact ⟨hc2, hr2⟩
    · rw [contractListCones, hc3, hr3]
      rfl

theorem contractCone_spec (c : Cone) (h : isValidCone c = true) :
    ∃ c2, contractCone c = .ok c2 ∧ isValidCone c2 = true ∧
      contractCone c2 = .ok c2 := by
  match c with
  | .mk i src tgt sl =>
    rw [isValidCone, Bool.and_eq_true, Bool.and_eq_true, Bool.and_eq_true] at h
    obtain ⟨⟨⟨hi, htgt⟩, hsrc⟩, hsl⟩ := h
    obtain ⟨src2, hs1, hs2, hs3⟩ := contractListCospans_spec src hsrc
    obtain ⟨tgt2, ht1, ht2, ht3⟩ := contractCospan_spec tgt htgt
    obtain ⟨sl2, hl1, hl2, hl3⟩ := contractListRewrites_spec sl hsl
    refine ⟨.mk i src2 tgt2 sl2, ?_, ?_, ?_⟩
    · rw [contractCone, hs1, ht1, hl1]
      rfl
    · rw [isValidCone, Bool.and_eq_true, Bool.and_eq_true, Bool.and_eq_true]
      exact ⟨⟨⟨hi, ht2⟩, hs2⟩, hl2⟩
    · rw [contractCone, hs3, ht3, hl3]
      rfl

theorem contractCospan_spec (c : Cospan) (h : isValidCospan c = true) :
    ∃ c2, contractCospan c = .ok c2 ∧ isValidCospan c2 = true ∧
      contractCospan c2 = .ok c2 := by
  match c with
  | .mk f b =>
    have hfb := h
    rw [isValidCospan, Bool.and_eq_true] at hfb
    by_cases h11 : (f.dimension == 1 && b.dimension == 1) = true
    · refine ⟨.mk f b, ?_, h, ?_⟩ <;>
        · rw [contractCospan]
          simp only [h, Bool.not_true, Bool.false_eq_true, if_false, Bool.not_false, if_true]
          rw [if_pos h11]
    · by_cases h00 : (f.dimension == 0 && b.dimension == 0) = true
      · refine ⟨.mk f b, ?_, h, ?_⟩ <;>
          · rw [contractCospan]
            simp only [h, Bool.not_true, Bool.false_eq_true, if_false, Bool.not_false, if_true]
            rw [if_neg h11, if_pos h00]
      · obtain ⟨f2, hf1, hf2, hfd, hf3⟩ := contractRewrite_spec f hfb.1
        obtain ⟨b2, hb1, hb2, hbd, hb3⟩ := contractRewrite_spec b hfb.2
        have hv2 : isValidCospan (.mk f2 b2) = true := by
          rw [isValidCospan, Bool.and_eq_true]
          exact ⟨hf2, hb2⟩
        have h11b : ¬((Cospan.forward (.mk f2 b2)).dimension == 1 &&
            (Cospan.backward (.mk f2 b2)).dimension == 1) = true := by
          simpa [Cospan.forward, Cospan.backward, hfd, hbd] using h11
        have h00b : ¬((Cospan.forward (.mk f2 b2)).dimension == 0 &&
            (Cospan.backward (.mk f2 b2)).dimension == 0) = true := by
          simpa [Cospan.forward, Cospan.backward, hfd, hbd] using h00
        refine ⟨.mk f2 b2, ?_, hv2, ?_⟩
        · rw [contractCospan]
          simp only [h, Bool.not_true, Bool.false_eq_true, if_false, Bool.not_false, if_true]
          rw [if_neg h11, if_neg h00, hf1, hb1]
          rfl
        · rw [contractCospan]
          simp only [hv2, Bool.not_true, Bool.false_eq_true, if_false, Bool.not_false, if_true]
          rw [if_neg (by simpa [Cospan.forward, Cospan.backward] using h11b),
            if_neg (by simpa [Cospan.forward, Cospan.backward] using h00b), hf3, hb3]
          rfl

theorem contractListCospans_spec (cs : List Cospan) (h : allCospansValid cs = true) :
    ∃ cs2, contractListCospans cs = .ok cs2 ∧ allCospansValid cs2 = true ∧
      contractListCospans cs2 = .ok cs2 := by
  match cs with
  | [] => exact ⟨[], rfl, rfl, rfl⟩
  | c :: rest =>
    rw [allCospansValid, Bool.and_eq_true] at h
    obtain ⟨c2, hc1, hc2, hc3⟩ := contractCospan_spec c h.1
    obtain ⟨rest2, hr1, hr2, hr3⟩ := contractListCospans_spec rest h.2
    refine ⟨c2 :: rest2, ?_, ?_, ?_⟩
    · rw [contractListCospans, hc1, hr1]
      rfl
    · rw [allCospansValid, Bool.and_eq_true]
      exact ⟨hc2, hr2⟩
    · rw [contractListCospans, hc3, hr3]
      rfl

theorem contractListRewrites_spec (rs : List Rewrite) (h : allRewritesValid rs = true) :
    ∃ rs2, contractListRewrites rs = .ok rs2 ∧ allRewritesValid rs2 = true ∧
      contractListRewrites rs2 = .ok rs2 := by
  match rs with
  | [] => exact ⟨[], rfl, rfl, rfl⟩
  | r :: rest =>
    rw [allRewritesValid, Bool.and_eq_true] at h
    obtain ⟨r2, hr1, hr2, _, hr3⟩ := contractRewrite_spec r h.1
    obtain ⟨rest2, hs1, hs2, hs3⟩ := contractListRewrites_spec rest h.2
    refine ⟨r2 :: rest2, ?_, ?_, ?_⟩
    · rw [contractListRewrites, hr1, hs1]
      rfl
    · rw [allRewritesValid, Bool.and_eq_true]
      exact ⟨hr2, hs2⟩
    · rw [contractListRewrites, hr3, hs3]
      rfl
end

theorem contractMapCospans_spec (cs : List Cospan) :
    ∃ cs2, contractMapCospans cs = .ok cs2 ∧
      ∀ c ∈ cs2, isValidCospan c = true → contractCospan c = .ok c := by
  induction cs with
  | nil => exact ⟨[], rfl, by intro c hc; cases hc⟩
  | cons c rest ih =>
    obtain ⟨rest2, hr1, hr2⟩ := ih
    by_cases hv : isValidCospan c = true
    · obtain ⟨c2, hc1, hc2, hc3⟩ := contractCospan_spec c hv
      refine ⟨c2 :: rest2, ?_, ?_⟩
      · rw [contractMapCospans]
        simp only [hv, if_true, hc1, hr1]
        rfl
      · intro x hx
        rcases List.mem_cons.mp hx with rfl | hx
        · intro _
          exact hc3
        · exact hr2 x hx
    · refine ⟨c :: rest2, ?_, ?_⟩
      · rw [contractMapCospans]
        simp only [hv, if_false, hr1]
        rfl
      · intro x hx
        rcases List.mem_cons.mp hx with rfl | hx
        · intro hvx
          exact absurd hvx hv
        · exact hr2 x hx

theorem contractMapCospans_id (l : List Cospan)
    (h : ∀ c ∈ l, isValidCospan c = true → contractCospan c = .ok c) :
    contractMapCospans l = .ok l := by
  induction l with
  | nil => rfl
  | cons c rest ih =>
    rw [contractMapCospans]
    have hrest : contractMapCospans rest = .ok rest :=
      ih (fun x hx => h x (List.mem_cons_of_mem c hx))
    by_cases hv : isValidCospan c = true
    · simp only [hv, if_true, h c (List.mem_cons_self c rest) hv, hrest]
      rfl
    · simp only [hv, if_false, hrest]
      rfl

theorem contractDiagram_spec (d : Diagram) (h1 : isValidDiagram d = true)
    (h2 : checkCycles d 0 = true) :
    ∃ r, contractDiagram d = .ok r ∧ isValidDiagram r = true ∧
      (∀ n, checkCycles d n = true → checkCycles r n = true) ∧
      contractDiagram r = .ok r := by
  induction d with
  | mk0 g =>
    refine ⟨.mk0 g, ?_, h1, fun n h => h, ?_⟩ <;>
      · rw [contractDiagram]
        simp [h1, h2]
  | mkN dim s cs ih =>
    rw [validDiagram_mkN, Bool.and_eq_true, decide_eq_true_eq] at h1
    obtain ⟨hdim, hs⟩ := h1
    have hs1 : checkCycles s 1 = true := by
      rw [checkCycles] at h2
      simpa [hdim] using h2
    have hs0 : checkCycles s 0 = true := checkCycles_mono s 0 1 (by omega) hs1
    obtain ⟨ns, hn1, hn2, hn3, hn4⟩ := ih hs hs0
    obtain ⟨cs2, hmap, hfix⟩ := contractMapCospans_spec cs
    have hdim0 : (dim == 0) = false := by
      simp only [beq_eq_false_iff_ne, ne_eq]
      omega
    have hvd : isValidDiagram (.mkN dim s cs) = true := by
      rw [validDiagram_mkN, Bool.and_eq_true, decide_eq_true_eq]
      exact ⟨hdim, hs⟩
    have hvr : isValidDiagram (.mkN dim ns cs2) = true := by
      rw [validDiagram_mkN, Bool.and_eq_true, decide_eq_true_eq]
      exact ⟨hdim, hn2⟩
    have hccr : ∀ n, checkCycles (.mkN dim s cs) n = true →
        checkCycles (.mkN dim ns cs2) n = true := by
      intro n hcc
      rw [checkCycles] at hcc ⊢
      have hn100 : ¬(n > 100) := by
        by_contra hcon
        simp [hcon] at hcc
      simp only [hn100, if_false, hdim, if_true] at hcc ⊢
      exact hn3 (n + 1) hcc
    refine ⟨.mkN dim ns cs2, ?_, hvr, hccr, ?_⟩
    · rw [contractDiagram]
      simp only [hvd, h2, hdim0, Bool.not_true, Bool.false_eq_true, if_false,
        Bool.not_false, if_true, hn1, hmap]
      rfl
    · rw [contractDiagram]
      have hccr0 : checkCycles (.mkN dim ns cs2) 0 = true := hccr 0 h2
      simp only [hvr, hccr0, hdim0, Bool.not_true, Bool.false_eq_true, if_false,
        Bool.not_false, if_true, hn4, contractMapCospans_id cs2 hfix]
      rfl

/-- Claim C6 (amended): on a structurally valid diagram whose source chain
stays within the 100-level recursion budget, contractDiagram succeeds, its
result satisfies isValidDiagram, and contraction is a fixed point on its
own output. -/
theorem contractDiagram_valid_fixed_point (d : Diagram)
    (h1 : isValidDiagram d = true) (h2 : checkCycles d 0 = true) :
    ∃ r, contractDiagram d = .ok r ∧ isValidDiagram r = true ∧
      contractDiagram r = .ok r := by
  obtain ⟨r, ha, hb, _, hd⟩ := contractDiagram_spec d h1 h2
  exact ⟨r, ha, hb, hd⟩

/-- Claim C6 witness: a concrete valid 1-dimensional diagram with one
generator cospan contracts successfully to a valid fixed point. -/
theorem contractDiagram_valid_fixed_point_witness :
    ∃ r, contractDiagram
        (.mkN 1 (.mk0 genA) [Cospan.mk (.mk0 genA genB) (.mk0 genB genA)]) = .ok r ∧
      isValidDiagram r = true ∧ contractDiagram r = .ok r :=
  contractDiagram_valid_fixed_point
    (.mkN 1 (.mk0 genA) [Cospan.mk (.mk0 genA genB) (.mk0 genB genA)])
    (by rfl) (by rfl)

set_option maxRecDepth 40000 in
/-- Claim C6 counterexample: the valid 102-level diagram makes
contractDiagram throw its cyclic-reference error instead of returning a
contracted diagram, so the claim fails without a depth restriction. -/
theorem contractDiagram_claim_cex :
    isValidDiagram (deepDiagram 102) = true ∧
    contractDiagram (deepDiagram 102) = .error "Cyclic reference detected in diagram" := by
  exact ⟨rfl, rfl⟩
